import Mathlib

/-!
Verification development for the FinTrack personal finance dashboard.

The definitions below are a shallow embedding of the core logic found in
`src/App.tsx` and `src/types.ts`: the data model, the pure derivation
functions (`stats`, `budgetProgress`, `filteredTransactions`, the per-asset
`performance` expression, the transaction summary built for the insight
request) and the mutation handlers (`handleAddTransaction`,
`deleteTransaction`, `toggleBillPaid`).  JavaScript numbers are modelled by
exact rationals; the results of JavaScript divisions, which can produce
`Infinity` and `NaN`, are modelled by the four-case type `JSNum`.
-/

namespace FinTrack

/-- Mirrors `TransactionType` in `types.ts`. -/
inductive TransactionType where
  | income
  | expense
deriving DecidableEq

/-- Mirrors the `Transaction` interface in `types.ts`. -/
structure Transaction where
  id : String
  date : String
  amount : Rat
  category : String
  description : String
  type : TransactionType
deriving DecidableEq

/-- Mirrors the `Category` interface in `types.ts`. -/
structure Category where
  id : String
  name : String
  icon : String
  color : String
  type : TransactionType
deriving DecidableEq

/-- Mirrors the `Budget` interface in `types.ts`. -/
structure Budget where
  id : String
  category : String
  limit : Rat
deriving DecidableEq

/-- Mirrors the `Bill` interface in `types.ts`. -/
structure Bill where
  id : String
  name : String
  amount : Rat
  dueDate : String
  category : String
  isPaid : Bool
deriving DecidableEq

/-- Mirrors the `Investment.category` union in `types.ts`. -/
inductive InvestmentCategory where
  | stock
  | crypto
  | realEstate
  | other
deriving DecidableEq

/-- Mirrors the `Investment` interface in `types.ts`. -/
structure Investment where
  id : String
  assetName : String
  symbol : String
  quantity : Rat
  purchasePrice : Rat
  currentPrice : Rat
  purchaseDate : String
  category : InvestmentCategory
deriving DecidableEq

/-- Mirrors `DEFAULT_CATEGORIES` in `types.ts` (nine seeded entries). -/
def DEFAULT_CATEGORIES : List Category :=
  [ { id := "1", name := "Food & Dining", icon := "Utensils", color := "#EF4444", type := .expense },
    { id := "2", name := "Shopping", icon := "ShoppingBag", color := "#F59E0B", type := .expense },
    { id := "3", name := "Transportation", icon := "Car", color := "#10B981", type := .expense },
    { id := "4", name := "Entertainment", icon := "Film", color := "#8B5CF6", type := .expense },
    { id := "5", name := "Health", icon := "HeartPulse", color := "#EC4899", type := .expense },
    { id := "6", name := "Utilities", icon := "Zap", color := "#3B82F6", type := .expense },
    { id := "7", name := "Salary", icon := "Wallet", color := "#10B981", type := .income },
    { id := "8", name := "Investment", icon := "TrendingUp", color := "#6366F1", type := .income },
    { id := "9", name := "Other", icon := "MoreHorizontal", color := "#6B7280", type := .expense } ]

/-- Model of a JavaScript number as it appears in the derived outputs: an
exact rational, positive or negative infinity, or `NaN`. -/
inductive JSNum where
  | num (q : Rat)
  | posInf
  | negInf
  | nan
deriving DecidableEq

/-- True exactly on the finite case of `JSNum`. -/
def JSNum.isFinite : JSNum → Bool
  | .num _ => true
  | _ => false

/-- JavaScript division of two finite numbers: `a / 0` is `Infinity`,
`-Infinity` or `NaN` depending on the sign of `a`. -/
def jsDiv (a b : Rat) : JSNum :=
  if b = 0 then
    if 0 < a then .posInf else if a < 0 then .negInf else .nan
  else .num (a / b)

/-- JavaScript multiplication of a possibly non-finite number by a finite
constant. -/
def jsMulConst : JSNum → Rat → JSNum
  | .num q, c => .num (q * c)
  | .posInf, c => if 0 < c then .posInf else if c < 0 then .negInf else .nan
  | .negInf, c => if 0 < c then .negInf else if c < 0 then .posInf else .nan
  | .nan, _ => .nan

/-- JavaScript `Math.min` on two possibly non-finite numbers: `NaN` if either
argument is `NaN`. -/
def jsMin : JSNum → JSNum → JSNum
  | .nan, _ => .nan
  | _, .nan => .nan
  | .negInf, _ => .negInf
  | _, .negInf => .negInf
  | .posInf, y => y
  | x, .posInf => x
  | .num a, .num b => .num (min a b)

/-- Result record of the `stats` memo in `App.tsx`. -/
structure Stats where
  balance : Rat
  income : Rat
  expenses : Rat
deriving DecidableEq

/-- Embeds the `stats` memo of `App.tsx`: income and expense totals are
computed by `filter` plus `reduce` with initial accumulator `0`, and the
balance is their difference. -/
def stats (transactions : List Transaction) : Stats :=
  let income := (transactions.filter fun t => decide (t.type = TransactionType.income)).foldl
    (fun acc t => acc + t.amount) 0
  let expenses := (transactions.filter fun t => decide (t.type = TransactionType.expense)).foldl
    (fun acc t => acc + t.amount) 0
  { balance := income - expenses, income := income, expenses := expenses }

/-- Result record of one entry of the `budgetProgress` memo in `App.tsx`
(the budget fields spread together with `spent` and `percentage`). -/
structure BudgetProgress where
  id : String
  category : String
  limit : Rat
  spent : Rat
  percentage : JSNum
deriving DecidableEq

/-- Embeds the `budgetProgress` memo of `App.tsx`: for each budget, `spent`
sums the expense transactions of the budget's category and `percentage` is
`Math.min((spent / budget.limit) * 100, 100)`. -/
def budgetProgress (budgets : List Budget) (transactions : List Transaction) :
    List BudgetProgress :=
  budgets.map fun budget =>
    let spent := (transactions.filter fun t =>
        decide (t.type = TransactionType.expense) && decide (t.category = budget.category)).foldl
      (fun acc t => acc + t.amount) 0
    { id := budget.id, category := budget.category, limit := budget.limit,
      spent := spent,
      percentage := jsMin (jsMulConst (jsDiv spent budget.limit) 100) (.num 100) }

/-- Embeds the per-asset `performance` expression of the investments table in
`App.tsx`: `((inv.currentPrice - inv.purchasePrice) / inv.purchasePrice) * 100`. -/
def performance (inv : Investment) : JSNum :=
  jsMulConst (jsDiv (inv.currentPrice - inv.purchasePrice) inv.purchasePrice) 100

/-- Shape of one element of the `summary` array built in
`getFinancialInsights` (`services/gemini.ts`): exactly the four fields kept
by the mapping. -/
structure TxSummary where
  type : TransactionType
  amount : Rat
  category : String
  date : String
deriving DecidableEq

/-- The field reduction applied to each summarised transaction in
`getFinancialInsights`. -/
def toSummary (t : Transaction) : TxSummary :=
  { type := t.type, amount := t.amount, category := t.category, date := t.date }

/-- Embeds the `summary` computed in `getFinancialInsights`:
`transactions.slice(-20)` keeps the last `min(20, length)` elements of the
stored array, and each kept element is reduced by `toSummary`. -/
def insightSummary (transactions : List Transaction) : List TxSummary :=
  (transactions.drop (transactions.length - 20)).map toSummary

/-- Model of `String.prototype.toLowerCase` (character-wise lowering). -/
def strLower (s : String) : String :=
  String.mk (s.data.map Char.toLower)

/-- Whether the second character list occurs at the head of the first. -/
def listStartsWith : List Char → List Char → Bool
  | _, [] => true
  | [], _ :: _ => false
  | a :: as, b :: bs => a == b && listStartsWith as bs

/-- Whether the second character list occurs contiguously anywhere inside the
first; the empty list occurs in every list. -/
def listContainsSeq : List Char → List Char → Bool
  | [], needle => needle.isEmpty
  | h :: t, needle => listStartsWith (h :: t) needle || listContainsSeq t needle

/-- Model of `String.prototype.includes`: substring containment. -/
def strIncludes (hay needle : String) : Bool :=
  listContainsSeq hay.data needle.data

/-- The filtering predicate of the `filteredTransactions` memo in `App.tsx`:
the lowered description or the lowered category contains the lowered query. -/
def matchesQuery (q : String) (t : Transaction) : Bool :=
  strIncludes (strLower t.description) (strLower q) ||
    strIncludes (strLower t.category) (strLower q)

/-- Days since the Unix epoch of a proleptic-Gregorian calendar date
(the civil-from-days algorithm used by standard date libraries). -/
def daysFromCivil (y m d : Int) : Int :=
  let yy : Int := if m ≤ 2 then y - 1 else y
  let era : Int := (if 0 ≤ yy then yy else yy - 399) / 400
  let yoe : Int := yy - era * 400
  let mp : Int := if 2 < m then m - 3 else m + 9
  let doy : Int := (153 * mp + 2) / 5 + d - 1
  let doe : Int := yoe * 365 + yoe / 4 - yoe / 100 + doy
  era * 146097 + doe - 719468

/-- Parses a `yyyy-MM-dd` date string into its three numeric components. -/
def parseYMD (s : String) : Option (Nat × Nat × Nat) :=
  match s.splitOn "-" with
  | [ys, ms, ds] =>
    match ys.toNat?, ms.toNat?, ds.toNat? with
    | some y, some m, some d => some (y, m, d)
    | _, _, _ => none
  | _ => none

/-- Model of `new Date(s).getTime()` for the `yyyy-MM-dd` strings the
application stores: milliseconds since the epoch at UTC midnight.
Unparseable strings (which give `NaN` in JavaScript and make the sort
comparator inconsistent) are mapped to `0`. -/
def getTime (s : String) : Int :=
  match parseYMD s with
  | some (y, m, d) => daysFromCivil y m d * 86400000
  | none => 0

/-- The sort key used by the comparator of `filteredTransactions`. -/
def txTime (t : Transaction) : Int :=
  getTime t.date

/-- Insertion step of a stable sort by date descending: the inserted element
(earlier in the input array) stays before every element whose time is not
greater than its own, exactly as the negative-comparator case of the stable
`Array.prototype.sort`. -/
def sortedInsertTx (x : Transaction) : List Transaction → List Transaction
  | [] => [x]
  | y :: ys => if txTime y ≤ txTime x then x :: y :: ys else y :: sortedInsertTx x ys

/-- Stable sort by date descending, modelling
`.sort((a, b) => new Date(b.date).getTime() - new Date(a.date).getTime())`
(ECMAScript `Array.prototype.sort` is stable). -/
def sortByDateDesc : List Transaction → List Transaction
  | [] => []
  | x :: xs => sortedInsertTx x (sortByDateDesc xs)

/-- Embeds the `filteredTransactions` memo of `App.tsx`: keep the
transactions matching the search query, then sort by date descending. -/
def filteredTransactions (q : String) (transactions : List Transaction) :
    List Transaction :=
  sortByDateDesc (transactions.filter (matchesQuery q))

/-- The `newTx` form state consumed by `handleAddTransaction`.  `amount` is
`none` when the field is unset or not a valid number (both falsy in the
JavaScript check `!newTx.amount`); an unset description is the empty
string. -/
structure NewTx where
  type : TransactionType
  date : Option String
  category : Option String
  amount : Option Rat
  description : String

/-- Embeds `handleAddTransaction` of `App.tsx`.  The handler validates with
`if (!newTx.amount || !newTx.description) return;` (a silent no-op), then
prepends a record built with the generated `freshId`, the entered amount,
`newTx.category || 'Other'` and `newTx.date || today`.  The generated id and
the current date are passed as parameters. -/
def handleAddTransaction (newTx : NewTx) (freshId today : String)
    (transactions : List Transaction) : List Transaction :=
  if newTx.amount = none ∨ newTx.amount = some 0 ∨ newTx.description = "" then
    transactions
  else
    { id := freshId,
      date := newTx.date.getD today,
      amount := newTx.amount.getD 0,
      category := newTx.category.getD "Other",
      description := newTx.description,
      type := newTx.type } :: transactions

/-- Embeds `deleteTransaction` of `App.tsx`: keep every transaction whose id
differs from the given one. -/
def deleteTransaction (id : String) (transactions : List Transaction) :
    List Transaction :=
  transactions.filter fun t => decide (¬ t.id = id)

/-- Embeds `toggleBillPaid` of `App.tsx`: map over the bills, flipping
`isPaid` on the records whose id matches. -/
def toggleBillPaid (id : String) (bills : List Bill) : List Bill :=
  bills.map fun b => if b.id = id then { b with isPaid := !b.isPaid } else b

/-- The transaction collections reachable from the empty store through the
two transaction mutation handlers. -/
inductive ReachableTxs : List Transaction → Prop
  | empty : ReachableTxs []
  | add (newTx : NewTx) (freshId today : String) {transactions : List Transaction} :
      ReachableTxs transactions →
      ReachableTxs (handleAddTransaction newTx freshId today transactions)
  | del (id : String) {transactions : List Transaction} :
      ReachableTxs transactions →
      ReachableTxs (deleteTransaction id transactions)

/-! ## Helper lemmas -/

theorem foldl_add_amount (l : List Transaction) (init : Rat) :
    l.foldl (fun acc t => acc + t.amount) init = init + (l.map Transaction.amount).sum := by
  induction l generalizing init with
  | nil => simp
  | cons t ts ih => simp [ih, add_assoc]

theorem perm_sortedInsertTx (x : Transaction) (l : List Transaction) :
    (sortedInsertTx x l).Perm (x :: l) := by
  induction l with
  | nil => exact List.Perm.refl _
  | cons y ys ih =>
    by_cases h : txTime y ≤ txTime x
    · simp only [sortedInsertTx, if_pos h]
      exact List.Perm.refl _
    · simp only [sortedInsertTx, if_neg h]
      exact (ih.cons y).trans (List.Perm.swap x y ys)

theorem perm_sortByDateDesc (l : List Transaction) : (sortByDateDesc l).Perm l := by
  induction l with
  | nil => exact List.Perm.refl _
  | cons x xs ih => exact (perm_sortedInsertTx x (sortByDateDesc xs)).trans (ih.cons x)

theorem pairwise_sortedInsertTx (x : Transaction) (l : List Transaction)
    (hl : l.Pairwise fun a b => txTime b ≤ txTime a) :
    (sortedInsertTx x l).Pairwise fun a b => txTime b ≤ txTime a := by
  induction l with
  | nil => simp [sortedInsertTx]
  | cons y ys ih =>
    rcases List.pairwise_cons.mp hl with ⟨hy, hys⟩
    by_cases h : txTime y ≤ txTime x
    · simp only [sortedInsertTx, if_pos h]
      refine List.pairwise_cons.mpr ⟨?_, hl⟩
      intro z hz
      rcases List.mem_cons.mp hz with rfl | hz2
      · exact h
      · exact le_trans (hy z hz2) h
    · simp only [sortedInsertTx, if_neg h]
      refine List.pairwise_cons.mpr ⟨?_, ih hys⟩
      intro z hz
      rcases List.mem_cons.mp ((perm_sortedInsertTx x ys).mem_iff.mp hz) with rfl | hz2
      · exact le_of_not_le h
      · exact hy z hz2

theorem pairwise_sortByDateDesc (l : List Transaction) :
    (sortByDateDesc l).Pairwise fun a b => txTime b ≤ txTime a := by
  induction l with
  | nil => simp [sortByDateDesc]
  | cons x xs ih => exact pairwise_sortedInsertTx x _ ih

theorem filter_time_sortedInsertTx (x : Transaction) (l : List Transaction) (d : Int) :
    (sortedInsertTx x l).filter (fun t => decide (txTime t = d))
      = if txTime x = d then x :: l.filter (fun t => decide (txTime t = d))
        else l.filter (fun t => decide (txTime t = d)) := by
  induction l with
  | nil => by_cases hx : txTime x = d <;> simp [sortedInsertTx, hx]
  | cons y ys ih =>
    by_cases h : txTime y ≤ txTime x
    · simp only [sortedInsertTx, if_pos h]
      by_cases hx : txTime x = d <;> simp [List.filter_cons, hx]
    · simp only [sortedInsertTx, if_neg h]
      by_cases hx : txTime x = d
      · have hy : ¬ txTime y = d := fun hyd => h (le_of_eq (hyd.trans hx.symm))
        simp [List.filter_cons, hy, ih, hx]
      · by_cases hy : txTime y = d <;> simp [List.filter_cons, hy, ih, hx]

theorem filter_time_sortByDateDesc (l : List Transaction) (d : Int) :
    (sortByDateDesc l).filter (fun t => decide (txTime t = d))
      = l.filter (fun t => decide (txTime t = d)) := by
  induction l with
  | nil => rfl
  | cons x xs ih =>
    by_cases hx : txTime x = d <;>
      simp [sortByDateDesc, filter_time_sortedInsertTx, hx, ih, List.filter_cons]

theorem listContainsSeq_nil (hay : List Char) : listContainsSeq hay [] = true := by
  cases hay <;> simp [listContainsSeq, listStartsWith]

theorem matchesQuery_empty (t : Transaction) : matchesQuery "" t = true := by
  have hd : (strLower "").data = [] := rfl
  simp [matchesQuery, strIncludes, hd, listContainsSeq_nil]

theorem filter_matchesQuery_empty (l : List Transaction) :
    l.filter (matchesQuery "") = l :=
  List.filter_eq_self.mpr fun t _ => matchesQuery_empty t

/-! ## Claim theorems -/

/-- C1: for every list of transactions the derived totals satisfy
`balance = income - expenses` exactly, where `income` is the sum of the
amounts of the income-type transactions and `expenses` the sum of the
amounts of the expense-type transactions, and on the empty list all three
values are `0`. -/
theorem stats_balance_eq_income_sub_expenses (transactions : List Transaction) :
    (stats transactions).balance = (stats transactions).income - (stats transactions).expenses
    ∧ (stats transactions).income =
        ((transactions.filter fun t => decide (t.type = TransactionType.income)).map
          Transaction.amount).sum
    ∧ (stats transactions).expenses =
        ((transactions.filter fun t => decide (t.type = TransactionType.expense)).map
          Transaction.amount).sum
    ∧ stats [] = { balance := 0, income := 0, expenses := 0 } := by
  refine ⟨rfl, ?_, ?_, by simp [stats]⟩ <;> simp [stats, foldl_add_amount]

/-- C2: evaluation of the code at the failing input.  A budget with
`limit = 0` and no matching expense (`spent = 0`) yields
`percentage = Math.min((0 / 0) * 100, 100) = NaN`, not the `0` the claim
requires. -/
theorem budgetProgress_zero_limit_nan :
    budgetProgress [{ id := "b1", category := "Food", limit := 0 }] [] =
      [{ id := "b1", category := "Food", limit := 0, spent := 0, percentage := JSNum.nan }]
    ∧ JSNum.nan ≠ JSNum.num 0 := by decide

/-- Concrete newest-first store of 21 transactions: index 0 is the most
recently added one (the handler prepends), amounts grow with age. -/
def txs21 : List Transaction :=
  (List.range 21).map fun i =>
    { id := "x", date := "2024-01-01", amount := (i : Rat),
      category := "Food", description := "d", type := .expense }

/-- C3: evaluation of the code at the failing input.  On a store of 21
transactions (newest first), `transactions.slice(-20)` keeps the last 20
stored elements, i.e. it drops the newest transaction and keeps the 20
oldest — not the 20 most recent ones the claim describes. -/
theorem insightSummary_drops_newest :
    insightSummary txs21 = (txs21.drop 1).map toSummary
    ∧ insightSummary txs21 ≠ (txs21.take 20).map toSummary
    ∧ 20 < txs21.length := by decide

/-- Investment bought at price zero, the failing input for C4. -/
def zeroBasisInvestment : Investment :=
  { id := "i1", assetName := "Bitcoin", symbol := "BTC", quantity := 2,
    purchasePrice := 0, currentPrice := 15, purchaseDate := "2024-01-01",
    category := .crypto }

/-- C4: evaluation of the code at the failing input.  With
`purchasePrice = 0` and `currentPrice = 15` the un-special-cased expression
`((currentPrice - purchasePrice) / purchasePrice) * 100` evaluates to
`Infinity`, a non-finite value that flows straight into the display layer. -/
theorem performance_zero_purchase_not_finite :
    performance zeroBasisInvestment = JSNum.posInf
    ∧ (performance zeroBasisInvestment).isFinite = false := by
  refine ⟨?_, ?_⟩ <;>
    norm_num [performance, zeroBasisInvestment, jsDiv, jsMulConst, JSNum.isFinite]

/-- C5: the filtered view is exactly the transactions whose description or
category contains the query case-insensitively (as a permutation of the
matching sublist), sorted by date descending, with ties preserving the
relative stored order (the same-date sublists are untouched, i.e. the sort
is stable); the empty query keeps every transaction, and a query matching
nothing yields the empty list. -/
theorem filteredTransactions_spec (q : String) (transactions : List Transaction) :
    (filteredTransactions q transactions).Perm (transactions.filter (matchesQuery q))
    ∧ (filteredTransactions q transactions).Pairwise (fun a b => txTime b ≤ txTime a)
    ∧ (∀ d : Int, (filteredTransactions q transactions).filter (fun t => decide (txTime t = d))
        = (transactions.filter (matchesQuery q)).filter (fun t => decide (txTime t = d)))
    ∧ (filteredTransactions "" transactions).Perm transactions
    ∧ ((∀ t ∈ transactions, matchesQuery q t = false) →
        filteredTransactions q transactions = []) := by
  refine ⟨perm_sortByDateDesc _, pairwise_sortByDateDesc _,
    fun d => filter_time_sortByDateDesc _ d, ?_, ?_⟩
  · show (sortByDateDesc (transactions.filter (matchesQuery ""))).Perm transactions
    rw [filter_matchesQuery_empty]
    exact perm_sortByDateDesc _
  · intro hnone
    unfold filteredTransactions
    rw [List.filter_eq_nil_iff.mpr fun t ht => by simp [hnone t ht]]
    rfl

/-- Transaction used by the C5 witness. -/
def txQ : Transaction :=
  { id := "q1", date := "2024-01-02", amount := 5, category := "Food",
    description := "lunch", type := .expense }

/-- Witness for C5 at a concrete query that matches no record. -/
theorem filteredTransactions_spec_witness :
    (∀ t ∈ [txQ], matchesQuery "zz" t = false)
    ∧ filteredTransactions "zz" [txQ] = [] :=
  ⟨by decide, (filteredTransactions_spec "zz" [txQ]).2.2.2.2 (by decide)⟩

/-- C6: adding a transaction with a fresh id (one not present in the
collection) and then deleting by that id returns the collection to its
exact pre-add state, contents and order. -/
theorem add_then_delete_roundtrip (newTx : NewTx) (freshId today : String)
    (transactions : List Transaction)
    (hfresh : freshId ∉ transactions.map Transaction.id) :
    deleteTransaction freshId (handleAddTransaction newTx freshId today transactions)
      = transactions := by
  have hkeep : transactions.filter (fun t => decide (¬ t.id = freshId)) = transactions := by
    apply List.filter_eq_self.mpr
    intro t ht
    simp only [decide_eq_true_eq]
    intro h
    exact hfresh (h ▸ List.mem_map_of_mem Transaction.id ht)
  unfold handleAddTransaction
  by_cases hv : newTx.amount = none ∨ newTx.amount = some 0 ∨ newTx.description = ""
  · rw [if_pos hv]
    exact hkeep
  · rw [if_neg hv]
    unfold deleteTransaction
    rw [List.filter_cons]
    simpa using hkeep

/-- Pre-existing transaction used by the C6 witness. -/
def txA : Transaction :=
  { id := "a", date := "2024-03-01", amount := 7, category := "Food & Dining",
    description := "groceries", type := .expense }

/-- Valid form input used by the C6 witness. -/
def newTxB : NewTx :=
  { type := .income, date := some "2024-03-02", category := some "Salary",
    amount := some 100, description := "paycheck" }

/-- Witness for C6 at a concrete store and fresh id. -/
theorem add_then_delete_roundtrip_witness :
    ("b" : String) ∉ ([txA].map Transaction.id)
    ∧ deleteTransaction "b" (handleAddTransaction newTxB "b" "2024-03-05" [txA]) = [txA] :=
  ⟨by decide, add_then_delete_roundtrip newTxB "b" "2024-03-05" [txA] (by decide)⟩

/-- C7: when the add-transaction input fails validation (unset, zero or
invalid amount, or empty description) the handler leaves the collection
completely unchanged; the handler returns the untouched collection and
surfaces no error. -/
theorem handleAddTransaction_invalid_noop (newTx : NewTx) (freshId today : String)
    (transactions : List Transaction)
    (h : newTx.amount = none ∨ newTx.amount = some 0 ∨ newTx.description = "") :
    handleAddTransaction newTx freshId today transactions = transactions := by
  unfold handleAddTransaction
  rw [if_pos h]

/-- Witness for C7 at a concrete zero-amount input. -/
theorem handleAddTransaction_invalid_noop_witness :
    ((⟨.expense, none, none, some 0, "coffee"⟩ : NewTx).amount = some 0)
    ∧ handleAddTransaction ⟨.expense, none, none, some 0, "coffee"⟩ "id9" "2024-01-01" [txA]
        = [txA] :=
  ⟨rfl, handleAddTransaction_invalid_noop _ "id9" "2024-01-01" [txA] (Or.inr (Or.inl rfl))⟩

/-- Valid input with the category left unset, used against C8. -/
def c8Unset : NewTx :=
  { type := .expense, date := none, category := none, amount := some 5,
    description := "coffee" }

/-- C8 counterexample: with the category unset, the handler stores the
category `"Other"`, while the first seeded category is `"Food & Dining"`;
the claim as stated is false on the code. -/
theorem handleAddTransaction_category_counterexample :
    (handleAddTransaction c8Unset "id1" "2024-01-01" []).map Transaction.category = ["Other"]
    ∧ (DEFAULT_CATEGORIES.map Category.name).head? = some "Food & Dining"
    ∧ ("Other" : String) ≠ "Food & Dining" := by decide

/-- C8 (amended): for every input passing validation (a valid non-zero
amount and a non-empty description) the handler prepends a transaction
carrying the generated fresh id, the entered amount and description, the
date defaulting to today when unset, and the category defaulting to
`"Other"` when unset. -/
theorem handleAddTransaction_valid_prepends (newTx : NewTx) (freshId today : String)
    (transactions : List Transaction) (a : Rat)
    (hamt : newTx.amount = some a) (ha : a ≠ 0) (hdesc : newTx.description ≠ "") :
    handleAddTransaction newTx freshId today transactions =
      { id := freshId, date := newTx.date.getD today, amount := a,
        category := newTx.category.getD "Other", description := newTx.description,
        type := newTx.type } :: transactions := by
  have hv : ¬ (newTx.amount = none ∨ newTx.amount = some 0 ∨ newTx.description = "") := by
    simp [hamt, ha, hdesc]
  unfold handleAddTransaction
  rw [if_neg hv, hamt]
  rfl

/-- Valid input with an explicit category, used by the C8 witness. -/
def c8Valid : NewTx :=
  { type := .expense, date := none, category := some "Food & Dining",
    amount := some 5, description := "tea" }

/-- Witness for C8 (amended) at a concrete valid input. -/
theorem handleAddTransaction_valid_prepends_witness :
    handleAddTransaction c8Valid "id2" "2024-02-02" [] =
      [{ id := "id2", date := "2024-02-02", amount := 5, category := "Food & Dining",
         description := "tea", type := .expense }] := by
  have h := handleAddTransaction_valid_prepends c8Valid "id2" "2024-02-02" [] 5 rfl
    (by norm_num) (by decide)
  simpa [c8Valid] using h

/-- Transaction with a negative amount, accepted by the handler. -/
def negTx : Transaction :=
  { id := "id1", date := "2024-01-01", amount := -5, category := "Other",
    description := "refund", type := .expense }

/-- C9 counterexample: the store holding only `negTx`, whose amount is
negative, is reachable from the empty store, because validation only
rejects a zero (or invalid) amount and never checks the sign. -/
theorem reachable_negative_amount :
    ReachableTxs [negTx] ∧ negTx.amount < 0 := by
  constructor
  · have h := ReachableTxs.add ⟨.expense, none, none, some (-5), "refund"⟩ "id1" "2024-01-01"
      ReachableTxs.empty
    have e : handleAddTransaction ⟨.expense, none, none, some (-5), "refund"⟩ "id1"
        "2024-01-01" [] = [negTx] := by decide
    exact e ▸ h
  · decide

/-- C9 (amended): every transaction in any collection reachable from the
empty store through the add and delete handlers has a non-zero amount. -/
theorem reachable_amount_ne_zero {transactions : List Transaction}
    (h : ReachableTxs transactions) : ∀ t ∈ transactions, t.amount ≠ 0 := by
  induction h with
  | empty => simp
  | add newTx freshId today hr ih =>
    intro t ht
    unfold handleAddTransaction at ht
    by_cases hv : newTx.amount = none ∨ newTx.amount = some 0 ∨ newTx.description = ""
    · rw [if_pos hv] at ht
      exact ih t ht
    · rw [if_neg hv] at ht
      rcases List.mem_cons.mp ht with rfl | hmem
      · push_neg at hv
        obtain ⟨h1, h2, _⟩ := hv
        obtain ⟨a, ha⟩ := Option.ne_none_iff_exists'.mp h1
        show newTx.amount.getD 0 ≠ 0
        rw [ha, Option.getD_some]
        intro h0
        exact h2 (ha.trans (by rw [h0]))
      · exact ih t hmem
  | del id hr ih =>
    intro t ht
    exact ih t (List.mem_of_mem_filter ht)

/-- Reachable transaction with a positive amount, used by the C9 witness. -/
def posTx : Transaction :=
  { id := "id3", date := "2024-01-01", amount := 9, category := "Other",
    description := "gift", type := .income }

/-- Witness for C9 (amended) at a concrete reachable store. -/
theorem reachable_amount_ne_zero_witness : posTx.amount ≠ 0 := by
  have e : handleAddTransaction ⟨.income, none, none, some 9, "gift"⟩ "id3" "2024-01-01" []
      = [posTx] := by decide
  have hr : ReachableTxs [posTx] :=
    e ▸ ReachableTxs.add ⟨.income, none, none, some 9, "gift"⟩ "id3" "2024-01-01"
      ReachableTxs.empty
  exact reachable_amount_ne_zero hr posTx (List.mem_singleton.mpr rfl)

theorem toggleBillPaid_involutive (bills : List Bill) (id : String) :
    toggleBillPaid id (toggleBillPaid id bills) = bills := by
  induction bills with
  | nil => rfl
  | cons b bs ih =>
    obtain ⟨bid, bname, bamt, bdue, bcat, bpaid⟩ := b
    simp only [toggleBillPaid, List.map_cons] at ih ⊢
    by_cases hb : bid = id <;> simp [hb, ih]

theorem toggleBillPaid_keeps_other_fields (bills : List Bill) (id : String) :
    (toggleBillPaid id bills).map (fun b => (b.id, b.name, b.amount, b.dueDate, b.category))
      = bills.map (fun b => (b.id, b.name, b.amount, b.dueDate, b.category)) := by
  induction bills with
  | nil => rfl
  | cons b bs ih =>
    obtain ⟨bid, bname, bamt, bdue, bcat, bpaid⟩ := b
    simp only [toggleBillPaid, List.map_cons] at ih ⊢
    by_cases hb : bid = id <;> simp [hb, ih]

theorem toggleBillPaid_flips_matching (bills : List Bill) (id : String) :
    (toggleBillPaid id bills).map Bill.isPaid
      = bills.map (fun b => if b.id = id then !b.isPaid else b.isPaid) := by
  induction bills with
  | nil => rfl
  | cons b bs ih =>
    obtain ⟨bid, bname, bamt, bdue, bcat, bpaid⟩ := b
    simp only [toggleBillPaid, List.map_cons] at ih ⊢
    by_cases hb : bid = id <;> simp [hb, ih]

/-- C10: toggling a bill id flips exactly the `isPaid` flag of the matching
records and leaves every other field, every other record and the order of
the collection unchanged; toggling the same id twice restores the original
collection. -/
theorem toggleBillPaid_spec (bills : List Bill) (id : String) :
    toggleBillPaid id (toggleBillPaid id bills) = bills
    ∧ (toggleBillPaid id bills).map (fun b => (b.id, b.name, b.amount, b.dueDate, b.category))
        = bills.map (fun b => (b.id, b.name, b.amount, b.dueDate, b.category))
    ∧ (toggleBillPaid id bills).map Bill.isPaid
        = bills.map (fun b => if b.id = id then !b.isPaid else b.isPaid) :=
  ⟨toggleBillPaid_involutive bills id, toggleBillPaid_keeps_other_fields bills id,
    toggleBillPaid_flips_matching bills id⟩

end FinTrack
